import Mathlib

/-!
# Verification of the service-lifecycle orchestrator (`switch-desktop/src/windows/mod.rs`)

This file shallowly embeds the Windows lifecycle orchestrator of the
`switch-desktop` crate: the `main0` command dispatcher and its helper
functions `install`, `change`, `uninstall`, `start`, `stop` and
`service_state`, together with the command-line encode/decode round trip
used by `install` (encoding) and `change` (decoding).

Modelling conventions:
* OS interactions (service-control-manager calls, file copies, the
  filesystem lock, the engine invocation) are recorded as `Event`s in a
  trace; every fallible external call takes its result from an `Env`
  record supplied up front, so each command becomes a pure function
  `Env → List Event` that mirrors the Rust control flow line by line.
* Strings handled by the decode logic of `change` are modelled as
  `List Char`; Rust's `str::trim` is modelled with `Char.isWhitespace`
  (the inputs of interest are ASCII).
* `Result<T, windows_service::Error>` is modelled by `RegResult`; the
  code only ever inspects the `Error::Winapi` variant's
  `raw_os_error()` value, so the error model keeps exactly that.
-/

set_option maxHeartbeats 1000000

namespace SwitchDesktop

/-! ## Basic data -/

/-- `pub const SERVICE_FLAG: &'static str = "start_switch_service_v1_";` -/
def SERVICE_FLAG : List Char := "start_switch_service_v1_".data

/-- `pub const SERVICE_NAME: &'static str = "switch-service-v1";` -/
def SERVICE_NAME : String := "switch-service-v1"

/-- Observed service state (`windows_service::service::ServiceState`),
restricted to the constructors the orchestrator distinguishes. -/
inductive SvcState
  | stopped
  | startPending
  | stopPending
  | running
  | paused
  deriving DecidableEq, Repr

/-- Model of `windows_service::Error` as matched by the code: the code
only ever looks at `Error::Winapi(e)` and `e.raw_os_error()`, so we keep
the Win32 code (`Option Int`) and collapse every other variant. -/
inductive RegErr
  | winapi (code : Option Int)
  | other
  deriving DecidableEq, Repr

/-- Model of `Result<α, windows_service::Error>`. -/
inductive RegResult (α : Type)
  | ok (a : α)
  | err (e : RegErr)
  deriving DecidableEq, Repr

/-- Result of `std::fs::copy("wintun.dll", ..)`: success, failure with
`io::ErrorKind::NotFound`, or any other failure (which the code panics on). -/
inductive CopyRes
  | ok
  | notFound
  | otherErr
  deriving DecidableEq, Repr

/-- `windows_service::service::ServiceStartType` as used by the code. -/
inductive StartType
  | autoStart
  | onDemand
  deriving DecidableEq, Repr

/-- `windows_service::service::ServiceErrorControl` as used by the code. -/
inductive ErrCtl
  | normal
  | other
  deriving DecidableEq, Repr

/-- The fields of `windows_service::service::ServiceInfo` populated by
`install` (lines 292-303) and `change` (lines 336-347). -/
structure ServiceInfo where
  name : String
  display_name : String
  start_type : StartType
  error_control : ErrCtl
  executable_path : List Char
  launch_arguments : List (List Char)
  dependencies : List String
  account_name : Option String
  account_password : Option String
  deriving DecidableEq, Repr

/-- The fields of `windows_service::service::ServiceConfig` that
`change` reads back via `query_config()`: the stored command line
(`executable_path`), display name, error control and dependencies. -/
structure QueryConfig where
  display_name : String
  error_control : ErrCtl
  dependencies : List String
  executable_path : List Char
  deriving DecidableEq, Repr

/-! ## Command-line encode / decode (claim C2)

`install` registers `executable_path` plus
`launch_arguments = [SERVICE_FLAG, home]`; the service manager stores
them as a single command line, each component quoted iff it contains a
space.  `change` (lines 321-334) recovers the executable and home paths
from that stored command line. -/

/-- Does the string contain a space? -/
def containsSpace (l : List Char) : Bool := l.contains ' '

/-- Modelled from the spec: the service manager (outside this
repository) stores each command-line component "quoted if it contains
spaces".  -/
def quoteIfSpace (l : List Char) : List Char :=
  if containsSpace l then '"' :: l ++ ['"'] else l

/-- Modelled from the spec: the command line registered at `Install` is
the executable path followed by the launch arguments
`[SERVICE_FLAG, home]`, space-separated, each component quoted if it
contains spaces. -/
def encodeCmdLine (exe home : List Char) : List Char :=
  quoteIfSpace exe ++ [' '] ++ quoteIfSpace SERVICE_FLAG ++ [' '] ++ quoteIfSpace home

/-- Rust `s.trim()` on a `List Char`: drop whitespace from both ends. -/
def trimStr (l : List Char) : List Char :=
  ((l.dropWhile Char.isWhitespace).reverse.dropWhile Char.isWhitespace).reverse

/-- Lines 322-326 / 329-333: `if s.starts_with('"') && s.ends_with('"')
{ &s[1..s.len() - 1] } else { s }`.  On the one-character string `"` the
Rust slice `[1..0]` panics, modelled as `none`. -/
def stripOuter (l : List Char) : Option (List Char) :=
  if l.head? = some '"' ∧ l.getLast? = some '"' then
    if l.length = 1 then none else some ((l.drop 1).dropLast)
  else some l

/-- Split at the first occurrence of `sep` (leftmost match, as Rust
`str::split` finds it): returns the part before the first occurrence
and the remainder after it, or `none` when `sep` does not occur. -/
def splitOnce (sep : List Char) : List Char → Option (List Char × List Char)
  | [] => none
  | c :: rest =>
    if sep.isPrefixOf (c :: rest) then some ([], (c :: rest).drop sep.length)
    else
      match splitOnce sep rest with
      | some (a, b) => some (c :: a, b)
      | none => none

/-- The first two items of Rust's `s.split(sep)` iterator (`sep`
nonempty): the first piece always exists; the second exists iff `sep`
occurs, and extends to the next occurrence of `sep` if any. -/
def splitFirstTwo (sep l : List Char) : List Char × Option (List Char) :=
  match splitOnce sep l with
  | none => (l, none)
  | some (a, b) =>
    match splitOnce sep b with
    | none => (a, some b)
    | some (b1, _) => (a, some b1)

/-- Lines 321-334 of `change`: recover `(executable_path, home_path)`
from the stored command line.  `none` models a panic: the
`split.next().unwrap()` for the home half when the sentinel is absent,
or the out-of-range slice in the quote stripping. -/
def decodeCmdLine (stored : List Char) : Option (List Char × List Char) :=
  match stripOuter stored with
  | none => none
  | some s =>
    match splitFirstTwo SERVICE_FLAG s with
    | (_, none) => none
    | (p0, some p1) =>
      match stripOuter (trimStr p0) with
      | none => none
      | some exe => some (exe, trimStr p1)

/-! ## Observable events and the environment

Each command of `main0` is embedded as a pure function producing the
list of externally observable actions it performs, in program order.
Fallible external calls draw their outcomes from an `Env` record. -/

/-- One user-visible outcome line (a `println!`). -/
inductive Report
  | elevationRequired
  | serviceNotStarted
  | queryErrorPrinted (e : RegErr)
  | configError
  | startSuccess
  | startFailed
  | serviceNotStopped
  | lockFileFailed
  | alreadyRunning
  | engineFailed
  | registryErrorSurfaced (e : RegErr)
  | alreadyInstalled
  | notDirectory
  | missingDependency
  | installFailed
  | installOk
  | notInstalledWarn
  | uninstallFailed
  | uninstallOk
  | stopFailed
  | stopOk
  | configFailed
  | configSuccess
  deriving DecidableEq, Repr

/-- Externally observable actions of the orchestrator, in program order. -/
inductive Event
  | elevationCheck
  | firewallBind
  | registryQuery
  | registryQueryStatus
  | registryQueryConfig
  | registryCreate (info : ServiceInfo)
  | registryUpdate (info : ServiceInfo)
  | registryDelete (actual : SvcState)
  | registryStart (args : List String)
  | registryStop
  | dirCreate
  | copyExe
  | copyWintun
  | lockOpen
  | lockTry
  | engineInvoke
  | consoleListen
  | lockRelease
  | sleepSec (n : Nat)
  | processExit
  | panicked
  | report (r : Report)
  deriving DecidableEq, Repr

/-- Outcomes of every fallible external call the orchestrator makes.
`registryDelete` additionally records `stateAtDelete`, the true service
state at the moment the delete call is issued — the code never reads
it (it does not re-query after the fixed stop wait), so control flow is
independent of it. -/
structure Env where
  /-- `windows_admin_check::is_app_elevated()` -/
  elevated : Bool
  /-- `std::env::args()` of the current process -/
  procArgs : List String
  /-- success of `config::read_config_file` / `config::default_config` -/
  configOk : Bool
  /-- result of `service_state()` (manager connect + open + query) -/
  svcState : RegResult SvcState
  /-- result of `start()` (registry start request) -/
  regStartRes : RegResult Unit
  /-- result of `stop()` (registry stop request) -/
  regStopRes : RegResult Unit
  /-- success of `config::lock_file()` -/
  lockOpenOk : Bool
  /-- is the singleton lock already held (`try_lock_exclusive` fails)? -/
  lockHeld : Bool
  /-- success of `Switch::start(config)` -/
  engineOk : Bool
  /-- does the install target directory already exist? -/
  pathExists : Bool
  /-- is the install target a directory (after `create_dir_all`)? -/
  pathIsDir : Bool
  /-- `config::get_home()` -/
  homeDir : List Char
  /-- `ServiceManager::local_computer` inside `install` -/
  managerConnect : RegResult Unit
  /-- result of `std::fs::copy("wintun.dll", ..)` -/
  wintunCopy : CopyRes
  /-- result of `create_service` (and `set_description`) -/
  createRes : RegResult Unit
  setDescRes : RegResult Unit
  /-- `uninstall`: manager connect + `open_service` -/
  uOpenRes : RegResult Unit
  /-- `uninstall`: `query_status()` -/
  uStatus : RegResult SvcState
  /-- `uninstall`: `service.stop()` -/
  uStopRes : RegResult Unit
  /-- `uninstall`: `service.delete()` -/
  uDeleteRes : RegResult Unit
  /-- true service state at the moment `delete()` is issued -/
  stateAtDelete : SvcState
  /-- `change`: manager connect + `open_service` -/
  cOpenRes : RegResult Unit
  /-- `change`: `query_config()` -/
  cQueryCfg : RegResult QueryConfig
  /-- `change`: `change_config` -/
  cChangeRes : RegResult Unit
  deriving DecidableEq, Repr

/-- The five mutating commands of `Commands` handled by `main0`
(the query-only `Route`/`List`/`Status` commands touch no claim and are
omitted).  `start` carries whether `--config <file>` was given,
`install` carries the target directory and the `--auto` flag, `config`
carries the `--auto` flag. -/
inductive Command
  | start (configFile : Option String)
  | stop
  | install (path : List Char) (auto : Bool)
  | uninstall
  | config (auto : Bool)
  deriving DecidableEq, Repr

/-! ## Embedded helper functions -/

/-- Lines 287-291 / 316-320: start type from the `--auto` flag. -/
def startTypeOf (auto : Bool) : StartType :=
  if auto then .autoStart else .onDemand

/-- Line 272: `path.join("switch-service-v1.exe")`. -/
def servicePath (path : List Char) : List Char :=
  path ++ '\\' :: "switch-service-v1.exe".data

/-- The `ServiceInfo` literal of `install`, lines 292-303. -/
def installServiceInfo (svcPath home : List Char) (auto : Bool) : ServiceInfo where
  name := SERVICE_NAME
  display_name := "switch service v1"
  start_type := startTypeOf auto
  error_control := .normal
  executable_path := svcPath
  launch_arguments := [SERVICE_FLAG, home]
  dependencies := []
  account_name := none -- run as System
  account_password := none

/-- The `ServiceInfo` literal of `change`, lines 336-347. -/
def changeServiceInfo (cfg : QueryConfig) (auto : Bool) (exe home : List Char) :
    ServiceInfo where
  name := SERVICE_NAME
  display_name := cfg.display_name
  start_type := startTypeOf auto
  error_control := cfg.error_control
  executable_path := exe
  launch_arguments := [SERVICE_FLAG, home]
  dependencies := cfg.dependencies
  account_name := none -- run as System
  account_password := none

/-- `admin_check()` (lines 27-37): prints the "requires elevation" line
and returns `true` exactly when the process is not elevated. -/
def adminCheckEvts (elevated : Bool) : List Event :=
  if elevated then [.elevationCheck] else [.elevationCheck, .report .elevationRequired]

/-! ## Embedded command branches of `main0` -/

/-- `Commands::Start` branch, lines 57-160. -/
def startCmdTrace (env : Env) : List Event :=
  if !env.elevated then adminCheckEvts env.elevated
  else
    .elevationCheck ::
    .firewallBind ::
    if !env.configOk then [.report .configError]
    else
      .registryQuery ::
      match env.svcState with
      | .ok st =>
        if st = .stopped then
          .registryStart (env.procArgs.drop 1) ::
          match env.regStartRes with
          | .ok _ => [.sleepSec 2, .report .startSuccess]
          | .err _ => [.report .startFailed]
        else [.report .serviceNotStopped]
      | .err e =>
        if e = .winapi (some 1060) then
          .lockOpen ::
          if !env.lockOpenOk then [.report .lockFileFailed]
          else
            .lockTry ::
            if env.lockHeld then [.report .alreadyRunning]
            else
              .engineInvoke ::
              (if env.engineOk then [.consoleListen] else [.report .engineFailed]) ++
              [.lockRelease]
        else [.report (.registryErrorSurfaced e)]

/-- `Commands::Stop` branch, lines 161-178.  Note `not_started()` —
a registry state query — runs before `admin_check()`. -/
def stopCmdTrace (env : Env) : List Event :=
  .registryQuery ::
  match env.svcState with
  | .ok st =>
    if st = .running then
      if !env.elevated then adminCheckEvts env.elevated
      else
        .elevationCheck ::
        .registryStop ::
        match env.regStopRes with
        | .ok _ => [.report .stopOk]
        | .err _ => [.report .stopFailed]
    else [.report .serviceNotStarted]
  | .err e => [.report (.queryErrorPrinted e)]

/-- `Commands::Install` branch (lines 179-202) inlining `install`
(lines 265-307).  Install proceeds whenever `service_state()` returns
any `Err` — the `is_ok()` test at line 183 does not distinguish
`NotFound` from other failures. -/
def installCmdTrace (env : Env) (path : List Char) (auto : Bool) : List Event :=
  if !env.elevated then adminCheckEvts env.elevated
  else
    .elevationCheck ::
    .registryQuery ::
    match env.svcState with
    | .ok _ => [.report .alreadyInstalled]
    | .err _ =>
      (if env.pathExists then [] else [.dirCreate]) ++
      if !env.pathIsDir then [.report .notDirectory]
      else
        match env.managerConnect with
        | .err _ => [.report .installFailed]
        | .ok _ =>
          .copyExe ::
          .copyWintun ::
          match env.wintunCopy with
          | .notFound => [.report .missingDependency, .processExit]
          | .otherErr => [.panicked]
          | .ok =>
            .registryCreate (installServiceInfo (servicePath path) env.homeDir auto) ::
            match env.createRes with
            | .err _ => [.report .installFailed]
            | .ok _ =>
              match env.setDescRes with
              | .err _ => [.report .installFailed]
              | .ok _ => [.report .installOk]

/-- `Commands::Uninstall` branch (lines 203-217) inlining `uninstall`
(lines 352-367). -/
def uninstallCmdTrace (env : Env) : List Event :=
  if !env.elevated then adminCheckEvts env.elevated
  else
    .elevationCheck ::
    .registryQuery ::
    (match env.svcState with
     | .err _ => [.report .notInstalledWarn]
     | .ok _ => []) ++
    match env.uOpenRes with
    | .err _ => [.report .uninstallFailed]
    | .ok _ =>
      .registryQueryStatus ::
      match env.uStatus with
      | .err _ => [.report .uninstallFailed]
      | .ok st =>
        if st ≠ .stopped then
          .registryStop ::
          match env.uStopRes with
          | .err _ => [.report .uninstallFailed]
          | .ok _ =>
            .sleepSec 1 ::
            .registryDelete env.stateAtDelete ::
            match env.uDeleteRes with
            | .err _ => [.report .uninstallFailed]
            | .ok _ => [.report .uninstallOk]
        else
          .registryDelete env.stateAtDelete ::
          match env.uDeleteRes with
          | .err _ => [.report .uninstallFailed]
          | .ok _ => [.report .uninstallOk]

/-- `Commands::Config` branch (lines 218-229) inlining `change`
(lines 309-350).  There is no `admin_check()` call on this branch. -/
def configCmdTrace (env : Env) (auto : Bool) : List Event :=
  .registryQuery ::
  (match env.svcState with
   | .err _ => [.report .notInstalledWarn]
   | .ok _ => []) ++
  match env.cOpenRes with
  | .err _ => [.report .configFailed]
  | .ok _ =>
    .registryQueryConfig ::
    match env.cQueryCfg with
    | .err _ => [.report .configFailed]
    | .ok cfg =>
      match decodeCmdLine cfg.executable_path with
      | none => [.panicked]
      | some (exe, home) =>
        .registryUpdate (changeServiceInfo cfg auto exe home) ::
        match env.cChangeRes with
        | .err _ => [.report .configFailed]
        | .ok _ => [.report .configSuccess]

/-- `main0` (line 55): dispatch over the mutating commands. -/
def main0Trace (env : Env) : Command → List Event
  | .start _ => startCmdTrace env
  | .stop => stopCmdTrace env
  | .install path auto => installCmdTrace env path auto
  | .uninstall => uninstallCmdTrace env
  | .config auto => configCmdTrace env auto

/-- The observable side effects claim C1 enumerates: file copies,
service-registry queries and mutations, lock acquisition — plus the
firewall bind and engine invocation, which are likewise externally
visible actions. -/
def isObservableEffect : Event → Bool
  | .registryQuery | .registryQueryStatus | .registryQueryConfig => true
  | .registryCreate _ | .registryUpdate _ | .registryDelete _ => true
  | .registryStart _ | .registryStop => true
  | .dirCreate | .copyExe | .copyWintun => true
  | .lockOpen | .lockTry | .lockRelease => true
  | .engineInvoke | .firewallBind => true
  | _ => false

/-- Is the event a service-registry mutation (create / update / delete /
start / stop request)? -/
def isRegistryMutation : Event → Bool
  | .registryCreate _ | .registryUpdate _ | .registryDelete _ => true
  | .registryStart _ | .registryStop => true
  | _ => false

/-- Does the event create a service registration? -/
def isRegistryCreate : Event → Bool
  | .registryCreate _ => true
  | _ => false

/-! ## Concrete environments for witnesses and counterexamples -/

/-- A stored command line as written at install time for an executable
path and home directory without embedded spaces. -/
def baseStoredCmdLine : List Char :=
  encodeCmdLine "C:\\switch\\switch-service-v1.exe".data "C:\\Users\\vnt\\.switch".data

/-- A well-formed `query_config()` answer. -/
def baseQueryConfig : QueryConfig where
  display_name := "switch service v1"
  error_control := .normal
  dependencies := []
  executable_path := baseStoredCmdLine

/-- A benign environment: elevated, everything succeeds, the service is
registered and stopped. -/
def baseEnv : Env where
  elevated := true
  procArgs := ["switch-desktop.exe", "start", "--server", "host:29871"]
  configOk := true
  svcState := .ok .stopped
  regStartRes := .ok ()
  regStopRes := .ok ()
  lockOpenOk := true
  lockHeld := false
  engineOk := true
  pathExists := true
  pathIsDir := true
  homeDir := "C:\\Users\\vnt\\.switch".data
  managerConnect := .ok ()
  wintunCopy := .ok
  createRes := .ok ()
  setDescRes := .ok ()
  uOpenRes := .ok ()
  uStatus := .ok .stopped
  uStopRes := .ok ()
  uDeleteRes := .ok ()
  stateAtDelete := .stopped
  cOpenRes := .ok ()
  cQueryCfg := .ok baseQueryConfig
  cChangeRes := .ok ()

/-- Unelevated environment (otherwise benign). -/
def envUnelevated : Env := { baseEnv with elevated := false }

/-- `service_state()` fails with an error other than `NotFound`
(`Winapi` with Win32 code 5, access denied). -/
def envAccessDenied : Env := { baseEnv with svcState := .err (.winapi (some 5)) }

/-- The service is not installed: `service_state()` fails with
`Winapi` code 1060. -/
def envNotInstalled : Env := { baseEnv with svcState := .err (.winapi (some 1060)) }

/-- Not installed and the engine start fails. -/
def envEngineFails : Env := { envNotInstalled with engineOk := false }

/-- Not installed and the singleton lock is already held. -/
def envLockHeld : Env := { envNotInstalled with lockHeld := true }

/-- Not installed and `wintun.dll` is absent from the working directory. -/
def envWintunMissing : Env := { envNotInstalled with wintunCopy := .notFound }

/-- Uninstall finds the service `Running`; at the moment the delete is
issued, the service has only reached `StopPending`. -/
def envStillStopping : Env :=
  { baseEnv with uStatus := .ok .running, stateAtDelete := .stopPending }

/-! # Theorems -/

/-- **C1**, counterexample.  The claim says every mutating command
checks the privilege gate before any other work and, unelevated,
performs zero observable side effects.  The `Config` (Reconfigure)
branch of `main0` never calls `admin_check()` at all: in an unelevated,
otherwise benign environment it queries the registry and issues a
`change_config` mutation. -/
theorem c1_counterexample :
    Event.elevationCheck ∉ main0Trace envUnelevated (.config false) ∧
    (main0Trace envUnelevated (.config false)).any isRegistryMutation = true := by
  decide

/-- **C1**, amended.  `Install`, `Uninstall` and `Start` do check the
privilege gate first and, unelevated, return after the check and the
refusal message with zero observable side effects.  `Stop` first runs a
service-registry state query (`not_started()`) and only then checks the
gate — unelevated it still performs no mutation, file copy or lock
acquisition, but the query does happen before the check.  `Reconfigure`
(`Config`) performs no privilege check at all. -/
theorem c1_amended (env : Env) (h : env.elevated = false) :
    (∀ cf, main0Trace env (.start cf) =
      [.elevationCheck, .report .elevationRequired]) ∧
    (∀ path auto, main0Trace env (.install path auto) =
      [.elevationCheck, .report .elevationRequired]) ∧
    (main0Trace env .uninstall = [.elevationCheck, .report .elevationRequired]) ∧
    ((main0Trace env .stop).head? = some .registryQuery ∧
      ∀ e ∈ main0Trace env .stop, isObservableEffect e = true → e = .registryQuery) ∧
    (∀ auto, Event.elevationCheck ∉ main0Trace env (.config auto)) := by
  obtain ⟨elev, args, cfgok, svc, rstart, rstop, lopen, lheld, eng, pex, pdir, home,
    mgr, wint, cre, sdesc, uopen, ustat, ustop, udel, sdel, copen, cq, cch⟩ := env
  replace h : elev = false := h
  subst h
  refine ⟨?_, ?_, ?_, ⟨?_, ?_⟩, ?_⟩
  · intro cf
    simp [main0Trace, startCmdTrace, adminCheckEvts]
  · intro path auto
    simp [main0Trace, installCmdTrace, adminCheckEvts]
  · simp [main0Trace, uninstallCmdTrace, adminCheckEvts]
  · simp [main0Trace, stopCmdTrace]
  · intro e he hobs
    simp only [main0Trace, stopCmdTrace] at he
    rcases svc with st | er
    · by_cases hr : st = .running
      · simp [hr, adminCheckEvts, List.mem_cons] at he
        rcases he with he | he | he <;> subst he <;>
          first
            | rfl
            | simp [isObservableEffect] at hobs
      · simp [hr, List.mem_cons] at he
        rcases he with he | he <;> subst he <;>
          first
            | rfl
            | simp [isObservableEffect] at hobs
    · simp [List.mem_cons] at he
      rcases he with he | he <;> subst he <;>
        first
          | rfl
          | simp [isObservableEffect] at hobs
  · intro auto hmem
    simp only [main0Trace, configCmdTrace] at hmem
    rcases svc with st | er <;> rcases copen with u | e2 <;> rcases cq with cfg | e3 <;>
      try simp at hmem
    all_goals rcases hdec : decodeCmdLine cfg.executable_path with _ | ⟨exe, home2⟩
    all_goals try rcases cch with u2 | e4
    all_goals simp [hdec] at hmem

/-- **C1**, witness: in a concrete unelevated environment, `Uninstall`
returns right after the privilege check with only the refusal message. -/
theorem c1_amended_witness :
    main0Trace envUnelevated .uninstall =
      [.elevationCheck, .report .elevationRequired] :=
  (c1_amended envUnelevated rfl).2.2.1

/-- **C3**: on `Start`, the direct-run fallback (lock-file open, lock
acquisition, engine invocation) is taken iff `service_state()` failed
with `Error::Winapi` code 1060 (service not installed); every other
query error is surfaced verbatim and the command performs no lock or
engine action after the query. -/
theorem c3_notfound_sole_fallback (env : Env) (cf : Option String) (e : RegErr)
    (helev : env.elevated = true) (hcfg : env.configOk = true)
    (herr : env.svcState = .err e) :
    ((Event.lockOpen ∈ main0Trace env (.start cf) ∨
      Event.lockTry ∈ main0Trace env (.start cf) ∨
      Event.engineInvoke ∈ main0Trace env (.start cf)) ↔ e = .winapi (some 1060)) ∧
    (e ≠ .winapi (some 1060) →
      main0Trace env (.start cf) =
        [.elevationCheck, .firewallBind, .registryQuery,
         .report (.registryErrorSurfaced e)]) := by
  by_cases h1060 : e = .winapi (some 1060)
  · subst h1060
    refine ⟨⟨fun _ => rfl, fun _ => ?_⟩, fun hne => absurd rfl hne⟩
    simp only [main0Trace, startCmdTrace, helev, hcfg, herr]
    by_cases hl : env.lockOpenOk <;> simp [hl]
  · constructor
    · rw [iff_false_intro h1060]
      simp [main0Trace, startCmdTrace, helev, hcfg, herr, h1060]
    · intro _
      simp [main0Trace, startCmdTrace, helev, hcfg, herr, h1060]

/-- **C3**, witness: a concrete non-`NotFound` error (`Winapi` code 5)
is surfaced and triggers no fallback. -/
theorem c3_witness :
    main0Trace envAccessDenied (.start none) =
      [.elevationCheck, .firewallBind, .registryQuery,
       .report (.registryErrorSurfaced (.winapi (some 5)))] :=
  (c3_notfound_sole_fallback envAccessDenied none (.winapi (some 5)) rfl rfl rfl).2
    (by decide)

/-- **C5**: on the `Start` fallback path, once the singleton lock is
acquired the trace is fully determined up to the engine outcome: the
engine is invoked and the lock is released as the final action on both
the engine-success and the engine-failure path. -/
theorem c5_lock_released_every_path (env : Env) (cf : Option String)
    (helev : env.elevated = true) (hcfg : env.configOk = true)
    (herr : env.svcState = .err (.winapi (some 1060)))
    (hopen : env.lockOpenOk = true) (hfree : env.lockHeld = false) :
    main0Trace env (.start cf) =
      [.elevationCheck, .firewallBind, .registryQuery, .lockOpen, .lockTry,
        .engineInvoke] ++
      (if env.engineOk then [.consoleListen] else [.report .engineFailed]) ++
      [.lockRelease] ∧
    (main0Trace env (.start cf)).getLast? = some .lockRelease := by
  have htr : main0Trace env (.start cf) =
      [.elevationCheck, .firewallBind, .registryQuery, .lockOpen, .lockTry,
        .engineInvoke] ++
      (if env.engineOk then [.consoleListen] else [.report .engineFailed]) ++
      [.lockRelease] := by
    simp only [main0Trace, startCmdTrace, helev, hcfg, herr, hopen, hfree]
    by_cases he : env.engineOk <;> simp [he]
  refine ⟨htr, ?_⟩
  rw [htr]
  by_cases he : env.engineOk <;> simp [he]

/-- **C5**, witness: with a concrete environment in which the engine
start fails, the lock release is still the final action. -/
theorem c5_witness :
    (main0Trace envEngineFails (.start none)).getLast? = some .lockRelease :=
  (c5_lock_released_every_path envEngineFails none rfl rfl rfl rfl rfl).2

/-- **C6**: if the singleton lock is already held when `Start` takes the
fallback path, the non-blocking acquisition fails, the already-running
refusal is reported, and the engine is never invoked. -/
theorem c6_lock_held_refuses (env : Env) (cf : Option String)
    (helev : env.elevated = true) (hcfg : env.configOk = true)
    (herr : env.svcState = .err (.winapi (some 1060)))
    (hopen : env.lockOpenOk = true) (hheld : env.lockHeld = true) :
    main0Trace env (.start cf) =
      [.elevationCheck, .firewallBind, .registryQuery, .lockOpen, .lockTry,
        .report .alreadyRunning] ∧
    Event.engineInvoke ∉ main0Trace env (.start cf) := by
  have htr : main0Trace env (.start cf) =
      [.elevationCheck, .firewallBind, .registryQuery, .lockOpen, .lockTry,
        .report .alreadyRunning] := by
    simp [main0Trace, startCmdTrace, helev, hcfg, herr, hopen, hheld]
  exact ⟨htr, by rw [htr]; decide⟩

/-- **C6**, witness. -/
theorem c6_witness :
    Event.engineInvoke ∉ main0Trace envLockHeld (.start none) :=
  (c6_lock_held_refuses envLockHeld none rfl rfl rfl rfl rfl).2

/-- **C10**: when `Start` finds the service `Stopped`, the arguments
passed to the registry start request are exactly the invoking process's
own arguments with the program name removed (`std::env::args()` from
index 1 on) — and nothing else is ever passed to a start request. -/
theorem c10_start_args_forwarded (env : Env) (cf : Option String)
    (helev : env.elevated = true) (hcfg : env.configOk = true)
    (hst : env.svcState = .ok .stopped) :
    Event.registryStart (env.procArgs.drop 1) ∈ main0Trace env (.start cf) ∧
    ∀ xs, Event.registryStart xs ∈ main0Trace env (.start cf) →
      xs = env.procArgs.drop 1 := by
  constructor
  · simp [main0Trace, startCmdTrace, helev, hcfg, hst]
  · intro xs hxs
    simp only [main0Trace, startCmdTrace, helev, hcfg, hst] at hxs
    rcases hr : env.regStartRes with u | e <;> rw [hr] at hxs <;> simp_all

/-- **C10**, witness: with concrete process arguments
`["switch-desktop.exe", "start", "--server", "host:29871"]` the
forwarded arguments are `["start", "--server", "host:29871"]`. -/
theorem c10_witness :
    Event.registryStart ["start", "--server", "host:29871"] ∈
      main0Trace baseEnv (.start none) :=
  (c10_start_args_forwarded baseEnv none rfl rfl rfl).1

/-- **C4**, counterexample.  The claim says the registry delete is never
invoked while the service is in a non-`Stopped` state.  `uninstall`
requests `stop` and then sleeps a fixed second without re-querying the
state, so in an environment where the service has only reached
`StopPending` when the delay elapses, the delete is issued while the
service is not `Stopped`. -/
theorem c4_counterexample :
    envStillStopping.uStatus = .ok .running ∧
    Event.registryDelete .stopPending ∈ main0Trace envStillStopping .uninstall ∧
    SvcState.stopPending ≠ SvcState.stopped := by
  decide

/-- **C4**, amended.  On `Uninstall` of a service observed in a
non-`Stopped` state, a stop request is always issued; the delete is
issued iff that stop request succeeded, and then only after a fixed
one-second delay — the state is not re-queried, so the delete carries
whatever the true service state happens to be at that moment. -/
theorem c4_amended (env : Env) (st : SvcState)
    (helev : env.elevated = true) (hopen : env.uOpenRes = .ok ())
    (hst : env.uStatus = .ok st) (hne : st ≠ .stopped) :
    Event.registryStop ∈ main0Trace env .uninstall ∧
    ((∃ s, Event.registryDelete s ∈ main0Trace env .uninstall) ↔
      env.uStopRes = .ok ()) ∧
    (env.uStopRes = .ok () →
      [Event.registryStop, Event.sleepSec 1,
        Event.registryDelete env.stateAtDelete] <:+: main0Trace env .uninstall) := by
  refine ⟨?_, ?_, ?_⟩
  · rcases hsv : env.svcState with st2 | er <;>
      rcases hstop : env.uStopRes with ⟨⟩ | e2 <;>
      simp [main0Trace, uninstallCmdTrace, helev, hopen, hst, hsv, hstop, hne]
  · rcases hsv : env.svcState with st2 | er <;>
      rcases hstop : env.uStopRes with ⟨⟩ | e2 <;>
      rcases hdel : env.uDeleteRes with ⟨⟩ | e3 <;>
      simp [main0Trace, uninstallCmdTrace, helev, hopen, hst, hsv, hstop, hdel, hne]
  · intro hok
    rcases hsv : env.svcState with st2 | er <;>
      rcases hdel : env.uDeleteRes with ⟨⟩ | e3
    · exact ⟨[.elevationCheck, .registryQuery, .registryQueryStatus],
        [.report .uninstallOk],
        by simp [main0Trace, uninstallCmdTrace, helev, hopen, hst, hsv, hok, hdel, hne]⟩
    · exact ⟨[.elevationCheck, .registryQuery, .registryQueryStatus],
        [.report .uninstallFailed],
        by simp [main0Trace, uninstallCmdTrace, helev, hopen, hst, hsv, hok, hdel, hne]⟩
    · exact ⟨[.elevationCheck, .registryQuery, .report .notInstalledWarn,
        .registryQueryStatus], [.report .uninstallOk],
        by simp [main0Trace, uninstallCmdTrace, helev, hopen, hst, hsv, hok, hdel, hne]⟩
    · exact ⟨[.elevationCheck, .registryQuery, .report .notInstalledWarn,
        .registryQueryStatus], [.report .uninstallFailed],
        by simp [main0Trace, uninstallCmdTrace, helev, hopen, hst, hsv, hok, hdel, hne]⟩

/-- **C4**, witness: concrete uninstall of a `Running` service — stop
request, one-second delay, then delete, in that order. -/
theorem c4_amended_witness :
    [Event.registryStop, Event.sleepSec 1,
      Event.registryDelete SvcState.stopPending] <:+:
      main0Trace envStillStopping .uninstall :=
  (c4_amended envStillStopping .running rfl rfl rfl (by decide)).2.2 rfl

/-- **C7**, counterexample.  The claim says a registry query failure
other than `NotFound` must not let `Install` proceed.  The code tests
only `service_state().is_ok()`: with a `Winapi` code-5 (access denied)
failure, install proceeds all the way to `create_service`. -/
theorem c7_counterexample :
    envAccessDenied.svcState = .err (.winapi (some 5)) ∧
    (RegErr.winapi (some 5) ≠ RegErr.winapi (some 1060)) ∧
    (main0Trace envAccessDenied
        (.install "C:\\switch".data false)).any isRegistryCreate = true := by
  decide

/-- **C7**, amended.  `Install` refuses (and creates nothing) whenever
the registry query succeeds — the service exists; but every query
failure, `NotFound` or not, is treated as "not installed" and install
proceeds to create the registration. -/
theorem c7_amended (env : Env) (path : List Char) (auto : Bool)
    (helev : env.elevated = true) :
    (∀ st, env.svcState = .ok st →
      main0Trace env (.install path auto) =
        [.elevationCheck, .registryQuery, .report .alreadyInstalled]) ∧
    (∀ e, env.svcState = .err e → env.pathIsDir = true →
      env.managerConnect = .ok () → env.wintunCopy = .ok →
      Event.registryCreate (installServiceInfo (servicePath path) env.homeDir auto) ∈
        main0Trace env (.install path auto)) := by
  constructor
  · intro st hst
    simp [main0Trace, installCmdTrace, helev, hst]
  · intro e hsvc hdir hmgr hwin
    rcases hc : env.createRes with ⟨⟩ | e2 <;>
      rcases hd : env.setDescRes with ⟨⟩ | e3 <;>
      by_cases hex : env.pathExists <;>
      simp [main0Trace, installCmdTrace, helev, hsvc, hdir, hmgr, hwin, hc, hd, hex]

/-- **C7**, witness: refusal on a registered service, and creation
under a concrete access-denied query failure. -/
theorem c7_amended_witness :
    main0Trace baseEnv (.install "C:\\switch".data false) =
      [.elevationCheck, .registryQuery, .report .alreadyInstalled] ∧
    Event.registryCreate (installServiceInfo (servicePath "C:\\switch".data)
        envAccessDenied.homeDir false) ∈
      main0Trace envAccessDenied (.install "C:\\switch".data false) :=
  ⟨(c7_amended baseEnv "C:\\switch".data false rfl).1 .stopped rfl,
   (c7_amended envAccessDenied "C:\\switch".data false rfl).2
      (.winapi (some 5)) rfl rfl rfl rfl⟩

/-- **C8**: when `wintun.dll` is absent at install time, the install
reports the missing dependency and exits before `create_service`: no
registration event ever occurs. -/
theorem c8_missing_dependency (env : Env) (path : List Char) (auto : Bool)
    (e : RegErr) (helev : env.elevated = true) (hsvc : env.svcState = .err e)
    (hex : env.pathExists = true) (hdir : env.pathIsDir = true)
    (hmgr : env.managerConnect = .ok ()) (hwin : env.wintunCopy = .notFound) :
    main0Trace env (.install path auto) =
      [.elevationCheck, .registryQuery, .copyExe, .copyWintun,
       .report .missingDependency, .processExit] ∧
    ∀ info, Event.registryCreate info ∉ main0Trace env (.install path auto) := by
  have htr : main0Trace env (.install path auto) =
      [.elevationCheck, .registryQuery, .copyExe, .copyWintun,
       .report .missingDependency, .processExit] := by
    simp [main0Trace, installCmdTrace, helev, hsvc, hex, hdir, hmgr, hwin]
  exact ⟨htr, fun info => by rw [htr]; simp⟩

/-- **C8**, witness. -/
theorem c8_witness :
    main0Trace envWintunMissing (.install "C:\\switch".data true) =
      [.elevationCheck, .registryQuery, .copyExe, .copyWintun,
       .report .missingDependency, .processExit] :=
  (c8_missing_dependency envWintunMissing "C:\\switch".data true
    (.winapi (some 1060)) rfl rfl rfl rfl rfl rfl).1

/-- **C9**: every service registration this program writes — the
`create_service` call of `install` and the `change_config` call of
`change` — carries `account_name = None` (the local-system account),
in every environment and on every command. -/
theorem c9_registration_account_is_system :
    ∀ (env : Env) (cmd : Command) (info : ServiceInfo),
      (Event.registryCreate info ∈ main0Trace env cmd ∨
       Event.registryUpdate info ∈ main0Trace env cmd) →
      info.account_name = none := by
  intro env cmd info h
  obtain ⟨elev, args, cfgok, svc, rstart, rstop, lopen, lheld, eng, pex, pdir, home,
    mgr, wint, cre, sdesc, uopen, ustat, ustop, udel, sdel, copen, cq, cch⟩ := env
  rcases h with h | h <;> cases cmd <;>
    simp only [main0Trace, startCmdTrace, stopCmdTrace, installCmdTrace,
      uninstallCmdTrace, configCmdTrace, adminCheckEvts] at h <;>
    (repeat' split at h) <;>
    simp_all [installServiceInfo, changeServiceInfo]

/-- **C9**, witness: a concrete `create_service` registration carries
the system account. -/
theorem c9_witness :
    (installServiceInfo (servicePath "C:\\switch".data)
      envAccessDenied.homeDir false).account_name = none :=
  c9_registration_account_is_system envAccessDenied
    (.install "C:\\switch".data false) _
    (Or.inl (by decide))

/-! ## Helper lemmas for the command-line round trip (claim C2) -/

theorem flag_ne_nil : SERVICE_FLAG ≠ [] := by decide

theorem space_not_mem_flag : ' ' ∉ SERVICE_FLAG := by decide

theorem quote_not_mem_flag : '"' ∉ SERVICE_FLAG := by decide

/-- An infix of `c :: x` either contains `c` or is an infix of `x`. -/
theorem infix_cons_elim {l x : List Char} {c : Char} (h : l <:+: c :: x) :
    c ∈ l ∨ l <:+: x := by
  obtain ⟨s, t, hst⟩ := h
  cases s with
  | nil =>
    cases l with
    | nil => exact Or.inr List.nil_infix
    | cons a l2 =>
      simp only [List.nil_append, List.cons_append, List.cons.injEq] at hst
      exact Or.inl (hst.1 ▸ List.mem_cons_self _ _)
  | cons a s2 =>
    simp only [List.cons_append, List.cons.injEq] at hst
    exact Or.inr ⟨s2, t, hst.2⟩

/-- An infix of `x ++ [c]` either contains `c` or is an infix of `x`. -/
theorem infix_concat_elim {l x : List Char} {c : Char} (h : l <:+: x ++ [c]) :
    c ∈ l ∨ l <:+: x := by
  have h2 : l.reverse <:+: c :: x.reverse := by
    have := List.reverse_infix.mpr h
    simpa using this
  rcases infix_cons_elim h2 with hc | h3
  · exact Or.inl (by simpa using hc)
  · exact Or.inr (by
      have := List.reverse_infix.mp (by simpa using h3)
      simpa using this)

/-- A nonempty suffix of `x ++ [c]` ends in `c`. -/
theorem suffix_concat_getLast {l x : List Char} {c : Char}
    (h : l <:+ x ++ [c]) (hne : l ≠ []) : l.getLast? = some c := by
  obtain ⟨s, hs⟩ := h
  have h1 : (s ++ l).getLast? = l.getLast? := List.getLast?_append_of_ne_nil s hne
  rw [hs] at h1
  rw [← h1, List.getLast?_append_of_ne_nil x (by simp)]
  rfl

/-- If the last element of a list is known to be `some c`, then `c` is a
member. -/
theorem mem_of_getLast?_eq {l : List Char} {c : Char} (h : l.getLast? = some c) :
    c ∈ l := by
  obtain ⟨h9, h10⟩ := List.mem_getLast?_eq_getLast (Option.mem_def.mpr h)
  exact h10 ▸ List.getLast_mem h9

/-- `splitOnce` finds the separator exactly at the seam of
`a ++ sep ++ b` when no earlier position starts an occurrence. -/
theorem splitOnce_append (sep b : List Char) (hsep : sep ≠ []) (a : List Char)
    (hno : ∀ a2, a2 <:+ a → a2 ≠ [] → ¬ sep.isPrefixOf (a2 ++ sep ++ b)) :
    splitOnce sep (a ++ sep ++ b) = some (a, b) := by
  induction a with
  | nil =>
    cases sep with
    | nil => exact absurd rfl hsep
    | cons c rest =>
      have hpre : (c :: rest).isPrefixOf (c :: (rest ++ b)) = true := by
        rw [List.isPrefixOf_iff_prefix]
        exact ⟨b, by simp⟩
      have hshape : ([] : List Char) ++ (c :: rest) ++ b = c :: (rest ++ b) := by simp
      rw [hshape, splitOnce, if_pos hpre, ← List.cons_append, List.drop_left]
  | cons x a2 ih =>
    have ih2 := ih (fun a3 h3 h4 => hno a3 (h3.trans (List.suffix_cons x a2)) h4)
    have hx : ¬ sep.isPrefixOf (x :: (a2 ++ sep ++ b)) = true := by
      have := hno (x :: a2) (List.suffix_refl _) (by simp)
      simpa [List.cons_append, List.append_assoc] using this
    have hshape : (x :: a2) ++ sep ++ b = x :: (a2 ++ sep ++ b) := by simp
    rw [hshape, splitOnce, if_neg hx, ih2]

/-- `splitOnce` finds nothing when no suffix starts with the separator. -/
theorem splitOnce_eq_none (sep b : List Char)
    (hno : ∀ b2, b2 <:+ b → ¬ sep.isPrefixOf b2) : splitOnce sep b = none := by
  induction b with
  | nil => rfl
  | cons x b2 ih =>
    have hx : ¬ sep.isPrefixOf (x :: b2) = true := hno (x :: b2) (List.suffix_refl _)
    rw [splitOnce, if_neg hx, ih (fun b3 h3 => hno b3 (h3.trans (List.suffix_cons x b2)))]

/-- No occurrence of `SERVICE_FLAG` can start inside
`quoteIfSpace exe ++ [' ']` and run into the separator region of the
encoded command line: the sentinel contains neither a space nor a
quote. -/
theorem flag_not_infix_padded (exe : List Char)
    (hinf : ¬ SERVICE_FLAG <:+: exe) :
    ¬ SERVICE_FLAG <:+: (quoteIfSpace exe ++ [' ']) := by
  intro h
  rcases infix_concat_elim h with hc | h2
  · exact space_not_mem_flag hc
  · unfold quoteIfSpace at h2
    by_cases hs : containsSpace exe
    · rw [if_pos hs] at h2
      rcases infix_cons_elim h2 with hc | h3
      · exact quote_not_mem_flag hc
      · rcases infix_concat_elim h3 with hc | h4
        · exact quote_not_mem_flag hc
        · exact hinf h4
    · rw [if_neg hs] at h2
      exact hinf h2

/-- No suffix of the home half of the encoded command line starts with
the sentinel when the home path does not contain it. -/
theorem flag_no_prefix_in_home (home : List Char)
    (hinf : ¬ SERVICE_FLAG <:+: home) :
    ∀ b2, b2 <:+ (' ' :: home) → ¬ SERVICE_FLAG.isPrefixOf b2 := by
  intro b2 hsuf hpre
  rw [List.isPrefixOf_iff_prefix] at hpre
  have h2 : SERVICE_FLAG <:+: (' ' :: home) := hpre.isInfix.trans hsuf.isInfix
  rcases infix_cons_elim h2 with hc | h3
  · exact space_not_mem_flag hc
  · exact hinf h3

/-- `dropWhile` is the identity on a list none of whose elements
satisfy the predicate. -/
theorem dropWhile_eq_self_of_all (p : Char → Bool) (l : List Char)
    (h : ∀ c ∈ l, p c = false) : l.dropWhile p = l := by
  cases l with
  | nil => rfl
  | cons x t => simp [List.dropWhile_cons, h x (by simp)]

/-- Trimming `l ++ [' ']` recovers `l` when `l` is whitespace-free. -/
theorem trimStr_sandwich (l : List Char)
    (h : ∀ c ∈ l, Char.isWhitespace c = false) : trimStr (l ++ [' ']) = l := by
  cases l with
  | nil => rfl
  | cons x t =>
    have hx : Char.isWhitespace x = false := h x (by simp)
    unfold trimStr
    rw [List.cons_append, List.dropWhile_cons, hx]
    simp only [Bool.false_eq_true, if_false, List.reverse_cons, List.cons_append]
    rw [List.reverse_append]
    simp only [List.reverse_cons, List.reverse_nil, List.nil_append, List.cons_append,
      List.singleton_append]
    rw [List.dropWhile_cons]
    simp only [show Char.isWhitespace ' ' = true from rfl, if_true]
    rw [dropWhile_eq_self_of_all _ _ (by
      intro c hc
      rcases List.mem_append.mp hc with hc | hc
      · exact h c (List.mem_cons_of_mem _ (List.mem_reverse.mp hc))
      · simp only [List.mem_singleton] at hc
        exact hc ▸ hx)]
    simp

/-- Trimming `' ' :: l` recovers `l` when `l` is whitespace-free. -/
theorem trimStr_leading (l : List Char)
    (h : ∀ c ∈ l, Char.isWhitespace c = false) : trimStr (' ' :: l) = l := by
  unfold trimStr
  rw [List.dropWhile_cons]
  simp only [show Char.isWhitespace ' ' = true from rfl, if_true]
  rw [dropWhile_eq_self_of_all _ _ h,
    dropWhile_eq_self_of_all _ _ (fun c hc => h c (List.mem_reverse.mp hc)),
    List.reverse_reverse]

/-- Trimming the quoted form `"exe"` (followed by the separator space)
is the identity: the quotes shield any inner spaces. -/
theorem trimStr_quoted (exe : List Char) :
    trimStr (('"' :: exe ++ ['"']) ++ [' ']) = '"' :: exe ++ ['"'] := by
  unfold trimStr
  rw [List.cons_append, List.cons_append, List.dropWhile_cons]
  simp only [show Char.isWhitespace '"' = false from rfl, Bool.false_eq_true, if_false]
  rw [List.reverse_cons, List.reverse_append]
  simp only [List.reverse_append, List.reverse_cons, List.reverse_nil, List.nil_append,
    List.cons_append, List.singleton_append, List.append_assoc]
  rw [List.dropWhile_cons]
  simp only [show Char.isWhitespace ' ' = true from rfl, if_true]
  rw [List.dropWhile_cons]
  simp only [show Char.isWhitespace '"' = false from rfl, Bool.false_eq_true, if_false]
  simp

/-- No occurrence of the sentinel can start strictly before the seam of
the encoded command line. -/
theorem flag_no_early_occurrence (b qe : List Char)
    (hinf : ¬ SERVICE_FLAG <:+: (qe ++ [' '])) :
    ∀ a2, a2 <:+ (qe ++ [' ']) → a2 ≠ [] →
      ¬ SERVICE_FLAG.isPrefixOf (a2 ++ SERVICE_FLAG ++ b) := by
  intro a2 hsuf hne hpre
  rw [List.isPrefixOf_iff_prefix] at hpre
  have h2 : a2 <+: a2 ++ SERVICE_FLAG ++ b := by
    rw [List.append_assoc]
    exact List.prefix_append a2 (SERVICE_FLAG ++ b)
  rcases List.prefix_or_prefix_of_prefix hpre h2 with h | h
  · exact hinf (h.isInfix.trans hsuf.isInfix)
  · have hlast : a2.getLast? = some ' ' := suffix_concat_getLast hsuf hne
    exact space_not_mem_flag (h.subset (mem_of_getLast?_eq hlast))

/-- **C2**, counterexample.  With spaces in both the executable path and
the home path, the decode of `change` does not invert the encode: the
outer-quote stripping removes the executable's opening quote and the
home's closing quote, and the home half is never unquoted, so the
recovered executable keeps a stray trailing quote and the recovered
home keeps a stray leading quote. -/
theorem c2_counterexample :
    decodeCmdLine (encodeCmdLine "C:\\a b\\sw.exe".data "C:\\h ome".data) ≠
      some ("C:\\a b\\sw.exe".data, "C:\\h ome".data) := by
  decide

/-- **C2**, amended.  The encode/decode round trip is exact when the
home path contains no whitespace and no quote (the executable path may
contain spaces, anything else only space-whitespace and no quote, and
neither path contains the sentinel). -/
theorem c2_amended_roundtrip (exe home : List Char)
    (hexe_ne : exe ≠ []) (hhome_ne : home ≠ [])
    (hq : '"' ∉ exe)
    (hw : ∀ c ∈ exe, Char.isWhitespace c = true → c = ' ')
    (hhw : ∀ c ∈ home, Char.isWhitespace c = false)
    (hhq : '"' ∉ home)
    (hfe : ¬ SERVICE_FLAG <:+: exe) (hfh : ¬ SERVICE_FLAG <:+: home) :
    decodeCmdLine (encodeCmdLine exe home) = some (exe, home) := by
  have hspmem : ' ' ∉ home := fun hmem => by simpa using hhw ' ' hmem
  have hsp_home : containsSpace home = false := by
    simp [containsSpace, hspmem]
  have hQhome : quoteIfSpace home = home := by simp [quoteIfSpace, hsp_home]
  have hQflag : quoteIfSpace SERVICE_FLAG = SERVICE_FLAG := by decide
  have henc : encodeCmdLine exe home =
      (quoteIfSpace exe ++ [' ']) ++ SERVICE_FLAG ++ (' ' :: home) := by
    unfold encodeCmdLine
    rw [hQflag, hQhome]
    simp [List.append_assoc]
  have hpadinf : ¬ SERVICE_FLAG <:+: (quoteIfSpace exe ++ [' ']) :=
    flag_not_infix_padded exe hfe
  have hsplit1 : splitOnce SERVICE_FLAG
      ((quoteIfSpace exe ++ [' ']) ++ SERVICE_FLAG ++ (' ' :: home)) =
      some (quoteIfSpace exe ++ [' '], ' ' :: home) :=
    splitOnce_append SERVICE_FLAG (' ' :: home) flag_ne_nil _
      (flag_no_early_occurrence (' ' :: home) (quoteIfSpace exe) hpadinf)
  have hsplit2 : splitOnce SERVICE_FLAG (' ' :: home) = none :=
    splitOnce_eq_none _ _ (flag_no_prefix_in_home home hfh)
  have hsft : splitFirstTwo SERVICE_FLAG
      ((quoteIfSpace exe ++ [' ']) ++ SERVICE_FLAG ++ (' ' :: home)) =
      (quoteIfSpace exe ++ [' '], some (' ' :: home)) := by
    unfold splitFirstTwo
    rw [hsplit1]
    dsimp only
    rw [hsplit2]
  have hlastenc : (encodeCmdLine exe home).getLast? = home.getLast? := by
    rw [henc, List.getLast?_append_of_ne_nil _ (List.cons_ne_nil ' ' home),
      show (' ' :: home) = [' '] ++ home from rfl,
      List.getLast?_append_of_ne_nil _ hhome_ne]
  have hstrip1 : stripOuter (encodeCmdLine exe home) =
      some (encodeCmdLine exe home) := by
    unfold stripOuter
    rw [if_neg]
    rintro ⟨-, h2⟩
    rw [hlastenc] at h2
    exact hhq (mem_of_getLast?_eq h2)
  have htrimA : trimStr (quoteIfSpace exe ++ [' ']) = quoteIfSpace exe := by
    by_cases hs : containsSpace exe
    · rw [show quoteIfSpace exe = '"' :: exe ++ ['"'] by simp [quoteIfSpace, hs]]
      exact trimStr_quoted exe
    · rw [show quoteIfSpace exe = exe by simp [quoteIfSpace, hs]]
      refine trimStr_sandwich exe (fun c hc => ?_)
      by_contra hcc
      have hcsp : c = ' ' := hw c hc (by simpa using hcc)
      subst hcsp
      exact hs (by simpa [containsSpace] using hc)
  have hstrip2 : stripOuter (quoteIfSpace exe) = some exe := by
    by_cases hs : containsSpace exe
    · rw [show quoteIfSpace exe = '"' :: exe ++ ['"'] by simp [quoteIfSpace, hs]]
      unfold stripOuter
      rw [if_pos ⟨rfl, by
        rw [show ('"' :: exe ++ ['"']) = ('"' :: exe) ++ ['"'] by simp,
          List.getLast?_append_of_ne_nil _ (by simp)]
        rfl⟩]
      rw [if_neg (by simp)]
      simp [List.dropLast_concat]
    · rw [show quoteIfSpace exe = exe by simp [quoteIfSpace, hs]]
      obtain ⟨x, t, rfl⟩ := List.exists_cons_of_ne_nil hexe_ne
      unfold stripOuter
      rw [if_neg]
      rintro ⟨h1, -⟩
      simp only [List.head?_cons, Option.some.injEq] at h1
      exact hq (h1 ▸ List.mem_cons_self x t)
  have htrimB : trimStr (' ' :: home) = home := trimStr_leading home hhw
  simp only [decodeCmdLine]
  rw [hstrip1]
  dsimp only
  rw [henc, hsft]
  dsimp only
  rw [htrimA, hstrip2]
  dsimp only
  rw [htrimB]

/-- **C2**, witness: a concrete executable path with spaces and a
space-free home directory round-trip exactly. -/
theorem c2_amended_witness :
    decodeCmdLine (encodeCmdLine "C:\\Program Files\\switch\\sw.exe".data
        "C:\\Users\\vnt".data) =
      some ("C:\\Program Files\\switch\\sw.exe".data, "C:\\Users\\vnt".data) :=
  c2_amended_roundtrip "C:\\Program Files\\switch\\sw.exe".data "C:\\Users\\vnt".data
    (by decide) (by decide) (by decide) (by decide) (by decide) (by decide)
    (by decide) (by decide)

end SwitchDesktop
